import Mathlib

/-!
Verification development for the PricePinion-Backend scraping core.

The shallow embedding below translates the scraping subsystem:
`FredMeyerScraper.scrapeSite` / `scrapePage` / `fredMeyerScraper`
(src/src/WebScraping/GroceryStores/FredMeyerScraper.ts), the scrape
coordinator `ScraperUtils.scrapeMultipleURLs` and the extraction helpers
(present in the repository but not under src/, hence modelled from the
spec), and the catalog reconciler `ProductProcessor.processScrapeResults`
(likewise modelled from the spec).

JavaScript-specific behaviour (string coercion of `undefined`, `parseInt`,
the `||` falsy-default idiom, regex tests) is embedded explicitly. DOM
access is abstracted: a product cell is the tuple of outcomes that the
five extraction helpers produce on it, and a page carries the optional
product-grid container plus the per-iteration outcome of the scoped
"load more" probe. The pagination `while` loop is embedded with explicit
fuel, since the JavaScript loop need not terminate when the probe never
fails.
-/

namespace PricePinion

/-- `IProductInfo` (src/interfaces/IProductInfo, as used by `scrapePage`):
one scraped product record. Each field is extracted from the DOM and may be
`undefined`, embedded as `Option String`. -/
structure IProductInfo where
  productName : Option String
  storeName : Option String
  productPrice : Option String
  productLink : Option String
  productImage : Option String
deriving DecidableEq, Repr

/-- JavaScript string coercion: `undefined` coerces to the string
`"undefined"` (as in `"$" + undefined` or `regex.test(undefined)`). -/
def jsString : Option String → String
  | none => "undefined"
  | some s => s

/-- A character matching the regex class `[\d.]`. -/
def isDigitOrDot (c : Char) : Bool := c.isDigit || c = '.'

/-- The Fred Meyer per-unit price regex `^\$[\d.]+\/lb$` from
`scrapePage` (FredMeyerScraper.ts line 137): a `$`, then a nonempty run
of digits and dots, then `/lb`, anchored at both ends. -/
def pricePerPoundTest (s : String) : Bool :=
  match s.data with
  | '$' :: rest =>
    match rest.reverse with
    | 'b' :: 'l' :: '/' :: revMid => !revMid.isEmpty && revMid.all isDigitOrDot
    | _ => false
  | _ => false

/-- A product cell matched by the `.AutoGrid-cell > *` selector, abstracted
as the outcomes of the five extraction helpers on that cell.

Modelled from the spec: the `Extractors` class is repository code not under
src/; per the spec (§4.2) each helper locates the first descendant matching
its selector and returns `undefined` (not an exception) when the selector
matches nothing, so a cell is embedded as the tuple of those optional
outcomes. -/
structure ProductCell where
  /-- `extractFromAria(product, ".mb-4 > .kds-Link")` -/
  ariaName : Option String
  /-- `extractProductImage(product, ".kds-Link > .h-full > .kds-Image-img")` -/
  imageSrc : Option String
  /-- `extractTextContent(product, "div > * >.kds-Text--s")` -/
  priceText : Option String
  /-- `extractFromValue(product, ".kds-Price--alternate")` -/
  priceValue : Option String
  /-- the href read by `extractProductURL` via `".mb-4 > .kds-Link"` -/
  linkHref : Option String
deriving DecidableEq, Repr

/-- Modelled from the spec: `Extractors.extractProductURL` is repository
code not under src/; per the spec (§4.2) it resolves a relative href
against `baseURL`, does not double-prefix an already-absolute URL, and
returns `undefined` when the selector matches nothing. -/
def extractProductURL (baseURL : String) (href : Option String) : Option String :=
  match href with
  | none => none
  | some h => if h.startsWith "http" then some h else some (baseURL ++ h)

/-- The price extraction of `scrapePage` (FredMeyerScraper.ts lines
137-154): take the text content of `div > * >.kds-Text--s`; if it matches
the per-unit price regex it is used unchanged, otherwise the `value` of
`.kds-Price--alternate` is used, prefixed with `"$"`. An `undefined`
text content coerces to `"undefined"` under `regex.test` and never
matches; an `undefined` fallback value coerces under `"$" + value`. -/
def extractPrice (cell : ProductCell) : String :=
  if pricePerPoundTest (jsString cell.priceText) then jsString cell.priceText
  else "$" ++ jsString cell.priceValue

/-- The body of `scrapePage`'s per-cell loop (FredMeyerScraper.ts lines
120-174): build one `IProductInfo` from one product cell. `storeName` is
the literal `"Fred Meyer"`; the other fields come from the extractors,
defined or not. -/
def scrapePageCell (cell : ProductCell) : IProductInfo :=
  { productName := cell.ariaName
    storeName := some "Fred Meyer"
    productPrice := some (extractPrice cell)
    productLink := extractProductURL "https://www.fredmeyer.com" cell.linkHref
    productImage := cell.imageSrc }

/-- `FredMeyerScraper.scrapePage` (FredMeyerScraper.ts lines 111-177):
for each cell matching `.AutoGrid-cell > *` push one record onto
`productData`; nothing is filtered at extraction time. -/
def scrapePage (cells : List ProductCell) : List IProductInfo :=
  cells.map scrapePageCell

/-- The environment variables read by `scrapeSite` (`process.env.CLICK_DELAY`
and `process.env.SCRAPE_DELAY`): each is a string or unset. -/
structure EnvConfig where
  CLICK_DELAY : Option String
  SCRAPE_DELAY : Option String
deriving DecidableEq, Repr

/-- Value of a nonempty digit run, most significant first. -/
def digitsVal (cs : List Char) : Nat :=
  cs.foldl (fun a c => a * 10 + (c.toNat - 48)) 0

/-- JavaScript `parseInt` applied to an env variable, `NaN` embedded as
`none`: an unset variable coerces to the string `"undefined"` (no digits,
so `NaN`); otherwise leading whitespace is skipped, an optional sign is
read, then the longest leading digit run; no digits gives `NaN`.
Radix-10 only: the `0x` hex prefix of JavaScript is not modelled, as no
claim depends on it. -/
def jsParseInt : Option String → Option Int
  | none => none
  | some s =>
    match s.data.dropWhile (fun c => c.isWhitespace) with
    | '-' :: rest =>
      let ds := rest.takeWhile (fun c => c.isDigit)
      if ds.isEmpty then none else some (-(digitsVal ds : Int))
    | '+' :: rest =>
      let ds := rest.takeWhile (fun c => c.isDigit)
      if ds.isEmpty then none else some ((digitsVal ds : Int))
    | rest =>
      let ds := rest.takeWhile (fun c => c.isDigit)
      if ds.isEmpty then none else some ((digitsVal ds : Int))

/-- The JavaScript idiom `parseInt(x) || d`: `NaN` and `0` are falsy, so
both fall back to the default `d`. -/
def jsParseIntOr (s : Option String) (d : Int) : Int :=
  match jsParseInt s with
  | none => d
  | some n => if n = 0 then d else n

/-- The click delay of `scrapeSite`'s pagination loop
(FredMeyerScraper.ts line 58): `parseInt(process.env.CLICK_DELAY) || 500`. -/
def clickDelayOf (env : EnvConfig) : Int :=
  jsParseIntOr env.CLICK_DELAY 500

/-- The post-pagination settle delay of `scrapeSite`
(FredMeyerScraper.ts line 86): `parseInt(process.env.SCRAPE_DELAY) || 3000`. -/
def settleDelayOf (env : EnvConfig) : Int :=
  jsParseIntOr env.SCRAPE_DELAY 3000

/-- Observable effects of one `scrapeSite` call: sleeps (with their
millisecond argument), outcomes of the scoped
`.mt-32 > .LoadMore__load-more-button` existence probe, and clicks on
that control. -/
inductive ScrapeEvent where
  | sleep (ms : Int)
  | probeLoad (ok : Bool)
  | clickLoad
deriving DecidableEq, Repr

/-- The page state a `scrapeSite` call observes: the result of
`page.waitForSelector(".AutoGrid")` (`none` embeds a page-miss, `some`
carries the product cells the grid holds at extraction time), and, for
iteration `i` of the pagination loop, whether the scoped load-more
existence probe succeeds. -/
structure PageModel where
  autoGrid : Option (List ProductCell)
  loadMoreProbe : Nat → Bool

/-- The pagination `while` loop of `scrapeSite` (FredMeyerScraper.ts lines
49-80), with explicit fuel since the JavaScript loop need not terminate.
Iteration `i`: sleep the click delay, run the existence probe; on success
click the control and loop, on the caught failure stop. Returns the event
trace and whether the loop terminated within the fuel. -/
def paginationTrace (probe : Nat → Bool) (d : Int) : Nat → Nat → List ScrapeEvent × Bool
  | 0, _ => ([], false)
  | fuel + 1, i =>
    if probe i then
      let rest := paginationTrace probe d fuel (i + 1)
      (ScrapeEvent.sleep d :: ScrapeEvent.probeLoad true :: ScrapeEvent.clickLoad :: rest.1,
        rest.2)
    else
      ([ScrapeEvent.sleep d, ScrapeEvent.probeLoad false], true)

/-- The trace of a pagination run whose probe succeeds exactly `n` times
before failing: `n` full iterations (sleep, successful probe, click)
followed by a final sleep and the failing probe that terminates the loop. -/
def iterTrace (d : Int) (n : Nat) : List ScrapeEvent :=
  (List.replicate n
      [ScrapeEvent.sleep d, ScrapeEvent.probeLoad true, ScrapeEvent.clickLoad]).flatten
    ++ [ScrapeEvent.sleep d, ScrapeEvent.probeLoad false]

/-- `FredMeyerScraper.scrapeSite` (FredMeyerScraper.ts lines 25-104):
wait for `.AutoGrid`; on a miss return `null` (embedded `none`) with no
further activity. Otherwise, when `scrapeRecursively` is set, run the
pagination loop, sleep the settle delay and scrape the grid; when it is
not set, scrape the first page directly. Returns the scrape result paired
with the event trace of the call. -/
def scrapeSite (env : EnvConfig) (pg : PageModel) (scrapeRecursively : Bool)
    (fuel : Nat) : Option (List IProductInfo) × List ScrapeEvent :=
  match pg.autoGrid with
  | none => (none, [])
  | some cells =>
    if scrapeRecursively then
      let run := paginationTrace pg.loadMoreProbe (clickDelayOf env) fuel 0
      (some (scrapePage cells), run.1 ++ [ScrapeEvent.sleep (settleDelayOf env)])
    else
      (some (scrapePage cells), [])

/-- Outcome of one category's scrape as the coordinator settles it: a
thrown error or timeout is `Except.error`, a successful call carries the
scraper's return value (`none` embedding a `null` page-miss). -/
def settleOutcome : Except String (Option (List IProductInfo)) → Option (List IProductInfo)
  | Except.error _ => none
  | Except.ok r => r

/-- Modelled from the spec: `ScraperUtils.scrapeMultipleURLs` is repository
code not under src/; per the spec (§4.3) it hands each category URL to the
scrape function, collects settled results keyed by category, and isolates
per-category failures (thrown error, timeout, or `null` page-miss) as
`null` for that key only. The batch is embedded as an association list in
the caller's key order. -/
def scrapeMultipleURLs (urls : List (String × String)) (scrapeRecursively : Bool)
    (scrapeFn : String → Bool → Except String (Option (List IProductInfo))) :
    List (String × Option (List IProductInfo)) :=
  urls.map (fun kv => (kv.1, settleOutcome (scrapeFn kv.2 scrapeRecursively)))

/-- The URL set of `fredMeyerScraper` (FredMeyerScraper.ts lines 190-198). -/
def fredMeyerURLs : List (String × String) :=
  [("meat", "https://www.fredmeyer.com/pl/meat-seafood/18004"),
   ("produce",
     "https://www.fredmeyer.com/pl/fresh-fruits-vegetables/06?taxonomyId=06&fulfillment=all"),
   ("milk", "https://www.fredmeyer.com/pl/milk-plant-based-%20milk/02001"),
   ("cheese", "https://www.fredmeyer.com/pl/cheese/02002"),
   ("butter", "https://www.fredmeyer.com/pl/butter-margarine/02004"),
   ("eggs", "https://www.fredmeyer.com/pl/eggs-egg-substitutes/02003")]

/-- `FredMeyerScraper.fredMeyerScraper` (FredMeyerScraper.ts lines
185-211): scrape the six category URLs via `scrapeMultipleURLs` with
`scrapeRecursively` fixed to `false`, the scrape function being this
scraper's `scrapeSite`. The browser is abstracted as the map `pages`
from URL to observed page state. -/
def fredMeyerScraper (env : EnvConfig) (pages : String → PageModel) (fuel : Nat) :
    List (String × Option (List IProductInfo)) :=
  scrapeMultipleURLs fredMeyerURLs false
    (fun url rec => Except.ok (scrapeSite env (pages url) rec fuel).1)

/-- `CatalogEntry`: a persisted catalog record, keyed by
`(storeName, productName)`. Modelled from the spec: the catalog and
`ProductProcessor` are repository code not under src/ (§3, §4.4). The
durable identifier and last-seen timestamp are owned by the collaborator
and play no role in the claims, so the entry carries the five product
fields. -/
structure CatalogEntry where
  productName : String
  storeName : String
  productPrice : String
  productLink : String
  productImage : String
deriving DecidableEq, Repr

/-- A required field passes the validation gate when it is defined and
non-empty (spec §4.4, §8). -/
def fieldOk : Option String → Bool
  | none => false
  | some s => !s.isEmpty

/-- The validation gate of the Reconciler: all five required fields
defined and non-empty (spec §4.4, §8). -/
def validRecord (r : IProductInfo) : Bool :=
  fieldOk r.productName && fieldOk r.storeName && fieldOk r.productPrice &&
    fieldOk r.productLink && fieldOk r.productImage

/-- The catalog entry a valid record persists as (defaults are never used
on a record that passed the validation gate). -/
def toEntry (r : IProductInfo) : CatalogEntry :=
  { productName := r.productName.getD ""
    storeName := r.storeName.getD ""
    productPrice := r.productPrice.getD ""
    productLink := r.productLink.getD ""
    productImage := r.productImage.getD "" }

/-- Identity key of a catalog entry: `(storeName, productName)` (spec §3). -/
def entryKey (e : CatalogEntry) : String × String :=
  (e.storeName, e.productName)

/-- Catalog lookup by identity key. -/
def lookupEntry (c : List CatalogEntry) (k : String × String) : Option CatalogEntry :=
  c.find? (fun e => entryKey e = k)

/-- Modelled from the spec: the per-candidate step of
`ProductProcessor.processScrapeResults` (§4.4), which is repository code
not under src/. An invalid candidate is rejected (logged, not inserted);
a valid one is looked up by identity key, inserted when absent, updated in
place when present with different mutable fields, and left untouched when
all fields are identical (no spurious write). Returns the new catalog and
the number of catalog writes (0 or 1). -/
def applyRecord (c : List CatalogEntry) (r : IProductInfo) : List CatalogEntry × Nat :=
  if validRecord r then
    let e := toEntry r
    match lookupEntry c (entryKey e) with
    | none => (c ++ [e], 1)
    | some old =>
      if old = e then (c, 0)
      else (c.map (fun x => if entryKey x = entryKey e then e else x), 1)
  else (c, 0)

/-- Modelled from the spec: the candidate fold of
`ProductProcessor.processScrapeResults` (§4.4). Each candidate is applied
in order; a rejection contributes nothing and does not abort the rest.
Returns the final catalog and the total number of catalog writes. -/
def processCandidates : List CatalogEntry → List IProductInfo → List CatalogEntry × Nat
  | c, [] => (c, 0)
  | c, r :: rest =>
    let step := applyRecord c r
    let restRun := processCandidates step.1 rest
    (restRun.1, step.2 + restRun.2)

/-- Flattening of a ScrapeBatch into the candidate sequence, skipping
`null` categories (spec §4.4). -/
def flattenBatch (batch : List (String × Option (List IProductInfo))) :
    List IProductInfo :=
  batch.foldr (fun kv acc => match kv.2 with | none => acc | some l => l ++ acc) []

/-- Modelled from the spec: `ProductProcessor.processScrapeResults` (§4.4),
repository code not under src/. Flattens the batch (skipping `null`
categories) and folds the candidates against the catalog. -/
def processScrapeResults (batch : List (String × Option (List IProductInfo)))
    (c : List CatalogEntry) : List CatalogEntry × Nat :=
  processCandidates c (flattenBatch batch)

/-! ## Claims about extraction (`scrapePage`) -/

/-- C6: for every product cell, if the extracted text content matches the
per-unit price pattern `^\$[\d.]+\/lb$` then it is used as `productPrice`
unchanged; otherwise `productPrice` is the value-based fallback extraction
prefixed with `"$"`. -/
theorem c6_price_extraction (cell : ProductCell) :
    (∀ s, cell.priceText = some s → pricePerPoundTest s = true →
      (scrapePageCell cell).productPrice = some s) ∧
    (pricePerPoundTest (jsString cell.priceText) = false →
      (scrapePageCell cell).productPrice = some ("$" ++ jsString cell.priceValue)) := by
  constructor
  · intro s hs ht
    simp [scrapePageCell, extractPrice, hs, jsString, ht]
  · intro hf
    simp [scrapePageCell, extractPrice, hf]

/-- Witness for C6 at the spec's own examples: the text `"$2.99/lb"` is
kept unchanged, and a fallback value `"2.99"` is normalized to `"$2.99"`. -/
theorem c6_price_extraction_witness :
    (scrapePageCell ⟨none, none, some "$2.99/lb", none, none⟩).productPrice =
      some "$2.99/lb" ∧
    (scrapePageCell ⟨none, none, none, some "2.99", none⟩).productPrice =
      some "$2.99" := by
  constructor
  · exact (c6_price_extraction ⟨none, none, some "$2.99/lb", none, none⟩).1
      "$2.99/lb" rfl (by decide)
  · have h := (c6_price_extraction ⟨none, none, none, some "2.99", none⟩).2 (by decide)
    simpa using h

/-- C7: `scrapePage` emits exactly one ProductRecord per matched cell, and
a cell is emitted even when field extractions return `undefined` — nothing
is dropped at extraction time. -/
theorem c7_one_record_per_cell (cells : List ProductCell) :
    (scrapePage cells).length = cells.length ∧
    ∀ cell ∈ cells, scrapePageCell cell ∈ scrapePage cells := by
  refine ⟨by simp [scrapePage], ?_⟩
  intro cell hc
  exact List.mem_map_of_mem scrapePageCell hc

/-- Witness for C7 on a cell all of whose extractions are `undefined`: the
record is still emitted and the output has one record for the one cell. -/
theorem c7_one_record_per_cell_witness :
    (scrapePage [⟨none, none, none, none, none⟩]).length = 1 ∧
    scrapePageCell ⟨none, none, none, none, none⟩ ∈
      scrapePage [⟨none, none, none, none, none⟩] :=
  ⟨(c7_one_record_per_cell [⟨none, none, none, none, none⟩]).1,
   (c7_one_record_per_cell [⟨none, none, none, none, none⟩]).2
     ⟨none, none, none, none, none⟩ (by simp)⟩

/-- C10: every record emitted by `scrapePage` has
`storeName = "Fred Meyer"`, a defined constant never read from the DOM. -/
theorem c10_store_name_constant (cells : List ProductCell) :
    ∀ r ∈ scrapePage cells, r.storeName = some "Fred Meyer" := by
  intro r hr
  rcases List.mem_map.mp hr with ⟨cell, _, rfl⟩
  rfl

/-- Witness for C10 on a cell with every extraction `undefined`. -/
theorem c10_store_name_constant_witness :
    (scrapePageCell ⟨none, none, none, none, none⟩).storeName = some "Fred Meyer" :=
  c10_store_name_constant [⟨none, none, none, none, none⟩]
    (scrapePageCell ⟨none, none, none, none, none⟩) (by simp [scrapePage])

/-! ## Claims about `scrapeSite` -/

/-- C4: `scrapeSite` returns `null` as a value when the `.AutoGrid`
container is never found (page-miss, with no further activity), and this
is distinct from a present-but-empty container, which yields an empty
product sequence. -/
theorem c4_page_miss_null (env : EnvConfig) (pg : PageModel) (r : Bool) (fuel : Nat) :
    (pg.autoGrid = none → scrapeSite env pg r fuel = (none, [])) ∧
    (pg.autoGrid = some [] →
      (scrapeSite env pg r fuel).1 = some [] ∧ (scrapeSite env pg r fuel).1 ≠ none) := by
  constructor
  · intro h
    simp [scrapeSite, h]
  · intro h
    cases r <;> simp [scrapeSite, h, scrapePage]

/-- Witness for C4: a concrete page-miss returns `null`; a concrete empty
grid returns the empty sequence. -/
theorem c4_page_miss_null_witness :
    scrapeSite ⟨none, none⟩ ⟨none, fun _ => false⟩ true 5 = (none, []) ∧
    (scrapeSite ⟨none, none⟩ ⟨some [], fun _ => false⟩ true 5).1 = some [] :=
  ⟨(c4_page_miss_null ⟨none, none⟩ ⟨none, fun _ => false⟩ true 5).1 rfl,
   ((c4_page_miss_null ⟨none, none⟩ ⟨some [], fun _ => false⟩ true 5).2 rfl).1⟩

/-- C8 (amended): an unset or unparseable `CLICK_DELAY` / `SCRAPE_DELAY`
does not crash `scrapeSite` — the delays fall back to the documented
defaults 500 and 3000; a parseable *nonzero* integer is used as given,
while a value parsing to `0` is falsy under the `||` idiom and also falls
back to the default. -/
theorem c8_env_delay_defaults (env : EnvConfig) :
    (jsParseInt env.CLICK_DELAY = none → clickDelayOf env = 500) ∧
    (jsParseInt env.SCRAPE_DELAY = none → settleDelayOf env = 3000) ∧
    (∀ n : Int, jsParseInt env.CLICK_DELAY = some n → n ≠ 0 → clickDelayOf env = n) ∧
    (∀ n : Int, jsParseInt env.SCRAPE_DELAY = some n → n ≠ 0 → settleDelayOf env = n) ∧
    (jsParseInt env.CLICK_DELAY = some 0 → clickDelayOf env = 500) ∧
    (jsParseInt env.SCRAPE_DELAY = some 0 → settleDelayOf env = 3000) := by
  refine ⟨fun h => ?_, fun h => ?_, fun n h hn => ?_, fun n h hn => ?_,
    fun h => ?_, fun h => ?_⟩
  · simp [clickDelayOf, jsParseIntOr, h]
  · simp [settleDelayOf, jsParseIntOr, h]
  · simp [clickDelayOf, jsParseIntOr, h, hn]
  · simp [settleDelayOf, jsParseIntOr, h, hn]
  · simp [clickDelayOf, jsParseIntOr, h]
  · simp [settleDelayOf, jsParseIntOr, h]

/-- Witness for C8: with both variables unset the delays are the
documented defaults; with `CLICK_DELAY="7"` the click delay is 7. -/
theorem c8_env_delay_defaults_witness :
    clickDelayOf ⟨none, none⟩ = 500 ∧ settleDelayOf ⟨none, none⟩ = 3000 ∧
    clickDelayOf ⟨some "7", none⟩ = 7 := by
  refine ⟨(c8_env_delay_defaults ⟨none, none⟩).1 rfl,
    (c8_env_delay_defaults ⟨none, none⟩).2.1 rfl,
    (c8_env_delay_defaults ⟨some "7", none⟩).2.2.1 7 (by decide) (by decide)⟩

/-- Counterexample to C8 as stated: `CLICK_DELAY="0"` parses as the
integer 0, yet the click delay used is the default 500, not 0 — a value
parsing to 0 is falsy under `parseInt(...) || 500`, so "parseable integers
are used" fails at 0. -/
theorem c8_env_delay_counterexample :
    jsParseInt (some "0") = some 0 ∧
    clickDelayOf ⟨some "0", none⟩ = 500 ∧
    clickDelayOf ⟨some "0", none⟩ ≠ 0 := by
  refine ⟨by decide, by decide, by decide⟩

/-- C9: `fredMeyerScraper` invokes `scrapeMultipleURLs` with
`scrapeRecursively` fixed to `false`, so each of the six categories is
scraped through `scrapeSite`'s non-recursive branch, whose event trace is
empty: no pagination sleep, no probe, no click, no settle delay. -/
theorem c9_non_recursive_run (env : EnvConfig) (pages : String → PageModel)
    (fuel : Nat) :
    fredMeyerScraper env pages fuel =
      fredMeyerURLs.map (fun kv => (kv.1, (scrapeSite env (pages kv.2) false fuel).1)) ∧
    ∀ url, (scrapeSite env (pages url) false fuel).2 = [] := by
  constructor
  · rfl
  · intro url
    cases h : (pages url).autoGrid <;> simp [scrapeSite, h]

/-- The pagination loop run from position `i` with enough fuel: when the
probe succeeds on the `n` offsets before `i + n` and fails at `i + n`, the
loop terminates with exactly `n` full sleep-probe-click iterations followed
by the final sleep and failing probe. -/
theorem paginationTrace_eq (probe : Nat → Bool) (d : Int) :
    ∀ (n i fuel : Nat), (∀ m, m < n → probe (i + m) = true) →
      probe (i + n) = false → n + 1 ≤ fuel →
      paginationTrace probe d fuel i = (iterTrace d n, true) := by
  intro n
  induction n with
  | zero =>
    intro i fuel _ hfail hfuel
    obtain ⟨f, rfl⟩ : ∃ f, fuel = f + 1 := ⟨fuel - 1, by omega⟩
    have h0 : probe i = false := by simpa using hfail
    simp [paginationTrace, h0, iterTrace]
  | succ n ih =>
    intro i fuel hsucc hfail hfuel
    obtain ⟨f, rfl⟩ : ∃ f, fuel = f + 1 := ⟨fuel - 1, by omega⟩
    have h0 : probe i = true := by simpa using hsucc 0 (by omega)
    have hsucc' : ∀ m, m < n → probe (i + 1 + m) = true := by
      intro m hm
      have h := hsucc (m + 1) (by omega)
      have e : i + (m + 1) = i + 1 + m := by omega
      rwa [e] at h
    have hfail' : probe (i + 1 + n) = false := by
      have e : i + (n + 1) = i + 1 + n := by omega
      rwa [e] at hfail
    have ihres := ih (i + 1) f hsucc' hfail' (by omega)
    simp [paginationTrace, h0, ihres, iterTrace, List.replicate_succ]

/-- C5: with `scrapeRecursively` set, each iteration of `scrapeSite`'s
pagination loop sleeps the click delay, probes the scoped load-more
control, and clicks it when present; the loop terminates exactly at the
first failing probe, and fuel `n + 1` suffices whenever the probe fails
after `n` successes. The whole recursive-mode trace is the `n` iterations,
the terminating failed probe, and the settle-delay sleep. -/
theorem c5_pagination_terminates (env : EnvConfig) (pg : PageModel)
    (cells : List ProductCell) (n fuel : Nat) (hgrid : pg.autoGrid = some cells)
    (hsucc : ∀ m, m < n → pg.loadMoreProbe m = true)
    (hfail : pg.loadMoreProbe n = false) (hfuel : n + 1 ≤ fuel) :
    (scrapeSite env pg true fuel).2 =
      iterTrace (clickDelayOf env) n ++ [ScrapeEvent.sleep (settleDelayOf env)] ∧
    (paginationTrace pg.loadMoreProbe (clickDelayOf env) fuel 0).2 = true := by
  have h := paginationTrace_eq pg.loadMoreProbe (clickDelayOf env) n 0 fuel
    (fun m hm => by simpa using hsucc m hm) (by simpa using hfail) hfuel
  constructor
  · simp [scrapeSite, hgrid, h]
  · rw [h]

/-- Witness for C5: a probe that succeeds twice then fails; with fuel 3
the loop terminates after two click iterations plus the failing probe,
then the settle delay. -/
theorem c5_pagination_terminates_witness :
    (scrapeSite ⟨none, none⟩ ⟨some [], fun i => decide (i < 2)⟩ true 3).2 =
      iterTrace 500 2 ++ [ScrapeEvent.sleep 3000] :=
  (c5_pagination_terminates ⟨none, none⟩ ⟨some [], fun i => decide (i < 2)⟩ [] 2 3
    rfl (fun m hm => decide_eq_true hm) (by decide) (by omega)).1

/-! ## Claims about the coordinator (`scrapeMultipleURLs`) -/

/-- C2: the ScrapeBatch has exactly the caller's category keys in order,
each key's value is the settled outcome of that category's own scrape (a
failure surfaces as `null` for that key only, siblings keep their own
outcomes), and `fredMeyerScraper`'s batch has exactly the six keys
meat, produce, milk, cheese, butter, eggs. -/
theorem c2_batch_keys_isolated (urls : List (String × String)) (r : Bool)
    (f : String → Bool → Except String (Option (List IProductInfo))) :
    scrapeMultipleURLs urls r f =
      urls.map (fun kv => (kv.1, settleOutcome (f kv.2 r))) ∧
    (scrapeMultipleURLs urls r f).map Prod.fst = urls.map Prod.fst ∧
    (∀ k u, (k, u) ∈ urls → ∀ msg, f u r = Except.error msg →
      (k, (none : Option (List IProductInfo))) ∈ scrapeMultipleURLs urls r f) ∧
    ∀ (env : EnvConfig) (pages : String → PageModel) (fuel : Nat),
      (fredMeyerScraper env pages fuel).map Prod.fst =
        ["meat", "produce", "milk", "cheese", "butter", "eggs"] := by
  refine ⟨rfl, by simp [scrapeMultipleURLs], ?_, fun env pages fuel => rfl⟩
  intro k u hm msg hf
  have h1 : ((k, u).1, settleOutcome (f (k, u).2 r)) ∈ scrapeMultipleURLs urls r f :=
    List.mem_map_of_mem (fun kv => (kv.1, settleOutcome (f kv.2 r))) hm
  simpa [settleOutcome, hf] using h1

/-- Witness for C2: one concrete failing category maps to `null` while
its sibling keeps its own (empty but successful) outcome. -/
theorem c2_batch_keys_isolated_witness :
    ("meat", (none : Option (List IProductInfo))) ∈
      scrapeMultipleURLs [("meat", "u1"), ("produce", "u2")] false
        (fun u _ => if u = "u1" then Except.error "timeout" else Except.ok (some [])) ∧
    scrapeMultipleURLs [("meat", "u1"), ("produce", "u2")] false
        (fun u _ => if u = "u1" then Except.error "timeout" else Except.ok (some [])) =
      [("meat", none), ("produce", some [])] := by
  constructor
  · exact (c2_batch_keys_isolated [("meat", "u1"), ("produce", "u2")] false
      (fun u _ => if u = "u1" then Except.error "timeout" else Except.ok (some []))).2.2.1
      "meat" "u1" (by simp) "timeout" (by simp)
  · have h := (c2_batch_keys_isolated [("meat", "u1"), ("produce", "u2")] false
      (fun u _ => if u = "u1" then Except.error "timeout" else Except.ok (some []))).1
    simpa [settleOutcome] using h

/-! ## Claims about the Reconciler (`processScrapeResults`) -/

theorem applyRecord_invalid (c : List CatalogEntry) (r : IProductInfo)
    (h : validRecord r = false) : applyRecord c r = (c, 0) := by
  simp [applyRecord, h]

theorem applyRecord_valid_absent (c : List CatalogEntry) (r : IProductInfo)
    (hv : validRecord r = true) (hl : lookupEntry c (entryKey (toEntry r)) = none) :
    applyRecord c r = (c ++ [toEntry r], 1) := by
  simp [applyRecord, hv, hl]

theorem applyRecord_valid_same (c : List CatalogEntry) (r : IProductInfo)
    (hv : validRecord r = true)
    (hl : lookupEntry c (entryKey (toEntry r)) = some (toEntry r)) :
    applyRecord c r = (c, 0) := by
  simp [applyRecord, hv, hl]

theorem applyRecord_valid_update (c : List CatalogEntry) (r : IProductInfo)
    (old : CatalogEntry) (hv : validRecord r = true)
    (hl : lookupEntry c (entryKey (toEntry r)) = some old) (hne : old ≠ toEntry r) :
    applyRecord c r =
      (c.map (fun x => if entryKey x = entryKey (toEntry r) then toEntry r else x), 1) := by
  simp [applyRecord, hv, hl, hne]

theorem lookupEntry_append_of_none (c : List CatalogEntry) (e : CatalogEntry)
    (k : String × String) (h : lookupEntry c k = none) :
    lookupEntry (c ++ [e]) k = lookupEntry [e] k := by
  induction c with
  | nil => rfl
  | cons x xs ih =>
    by_cases hx : entryKey x = k
    · simp [lookupEntry, List.find?, hx] at h
    · simp only [lookupEntry, List.cons_append, List.find?] at h ⊢
      rw [decide_eq_false hx] at h ⊢
      exact ih h

theorem lookupEntry_append_of_some (c : List CatalogEntry) (e x : CatalogEntry)
    (k : String × String) (h : lookupEntry c k = some x) :
    lookupEntry (c ++ [e]) k = some x := by
  induction c with
  | nil => simp [lookupEntry, List.find?] at h
  | cons y ys ih =>
    by_cases hy : entryKey y = k
    · simp only [lookupEntry, List.find?, decide_eq_true hy] at h ⊢
      simpa [List.cons_append, List.find?, decide_eq_true hy] using h
    · simp only [lookupEntry, List.find?, decide_eq_false hy] at h
      simp only [lookupEntry, List.cons_append, List.find?, decide_eq_false hy]
      exact ih h

theorem lookupEntry_map_update (c : List CatalogEntry) (e : CatalogEntry)
    (h : (lookupEntry c (entryKey e)).isSome = true) :
    lookupEntry (c.map (fun x => if entryKey x = entryKey e then e else x))
      (entryKey e) = some e := by
  induction c with
  | nil => simp [lookupEntry, List.find?] at h
  | cons x xs ih =>
    by_cases hx : entryKey x = entryKey e
    · simp [lookupEntry, List.find?, hx]
    · simp only [lookupEntry, List.find?, List.map_cons, if_neg hx,
        decide_eq_false hx] at h ⊢
      exact ih h

theorem lookupEntry_map_update_ne (c : List CatalogEntry) (e : CatalogEntry)
    (k : String × String) (hne : entryKey e ≠ k) :
    lookupEntry (c.map (fun x => if entryKey x = entryKey e then e else x)) k =
      lookupEntry c k := by
  induction c with
  | nil => rfl
  | cons x xs ih =>
    by_cases hx : entryKey x = entryKey e
    · have hxk : entryKey x ≠ k := hx ▸ hne
      simp only [lookupEntry, List.map_cons, if_pos hx, List.find?,
        decide_eq_false hne, decide_eq_false hxk]
      exact ih
    · simp only [lookupEntry, List.map_cons, if_neg hx, List.find?]
      cases hdec : decide (entryKey x = k)
      · exact ih
      · rfl

/-- After a valid record is applied, the catalog holds exactly its entry
under its identity key, in every branch (insert, identical, update). -/
theorem lookupEntry_applyRecord_self (c : List CatalogEntry) (r : IProductInfo)
    (hv : validRecord r = true) :
    lookupEntry (applyRecord c r).1 (entryKey (toEntry r)) = some (toEntry r) := by
  cases hl : lookupEntry c (entryKey (toEntry r)) with
  | none =>
    rw [applyRecord_valid_absent c r hv hl]
    rw [lookupEntry_append_of_none c (toEntry r) _ hl]
    simp [lookupEntry, List.find?]
  | some old =>
    by_cases he : old = toEntry r
    · rw [he] at hl
      rw [applyRecord_valid_same c r hv hl]
      exact hl
    · rw [applyRecord_valid_update c r old hv hl he]
      exact lookupEntry_map_update c (toEntry r) (by rw [hl]; rfl)

/-- Applying any record leaves every other identity key's lookup
unchanged. -/
theorem lookupEntry_applyRecord_ne (c : List CatalogEntry) (r : IProductInfo)
    (k : String × String) (hne : entryKey (toEntry r) ≠ k) :
    lookupEntry (applyRecord c r).1 k = lookupEntry c k := by
  by_cases hv : validRecord r = true
  · cases hl : lookupEntry c (entryKey (toEntry r)) with
    | none =>
      rw [applyRecord_valid_absent c r hv hl]
      cases hk : lookupEntry c k with
      | none =>
        rw [lookupEntry_append_of_none c (toEntry r) k hk]
        simp [lookupEntry, List.find?, decide_eq_false hne]
      | some x => exact lookupEntry_append_of_some c (toEntry r) x k hk
    | some old =>
      by_cases he : old = toEntry r
      · rw [he] at hl
        rw [applyRecord_valid_same c r hv hl]
      · rw [applyRecord_valid_update c r old hv hl he]
        exact lookupEntry_map_update_ne c (toEntry r) k hne
  · rw [applyRecord_invalid c r (by simpa using hv)]

/-- C1: a candidate missing any required field (undefined or empty) is
rejected — the catalog is untouched and the rest of the batch is still
processed — while a valid candidate is persisted under its identity key;
against a catalog not already holding that key, the candidate ends up in
the catalog if and only if all five fields are defined and non-empty. -/
theorem c1_validation_gate (c : List CatalogEntry) (r : IProductInfo)
    (rest : List IProductInfo) :
    (validRecord r = false → applyRecord c r = (c, 0)) ∧
    (validRecord r = false →
      processCandidates c (r :: rest) = processCandidates c rest) ∧
    (validRecord r = true →
      (lookupEntry (applyRecord c r).1 (entryKey (toEntry r))).isSome = true) ∧
    (lookupEntry c (entryKey (toEntry r)) = none →
      ((lookupEntry (applyRecord c r).1 (entryKey (toEntry r))).isSome = true ↔
        validRecord r = true)) := by
  refine ⟨fun h => applyRecord_invalid c r h, fun h => ?_, fun hv => ?_, fun hl => ?_⟩
  · simp [processCandidates, applyRecord_invalid c r h]
  · rw [lookupEntry_applyRecord_self c r hv]
    rfl
  · constructor
    · intro habs
      by_cases hv : validRecord r = true
      · exact hv
      · rw [applyRecord_invalid c r (by simpa using hv)] at habs
        rw [hl] at habs
        simp at habs
    · intro hv
      rw [lookupEntry_applyRecord_self c r hv]
      rfl

/-- Witness for C1: a concrete record with an undefined `productName` is
rejected and its sibling still processed; a concrete complete record is
persisted. -/
theorem c1_validation_gate_witness :
    processCandidates []
        [⟨none, some "s", some "p", some "l", some "i"⟩,
         ⟨some "n", some "s", some "p", some "l", some "i"⟩] =
      processCandidates [] [⟨some "n", some "s", some "p", some "l", some "i"⟩] ∧
    (lookupEntry
        (applyRecord [] ⟨some "n", some "s", some "p", some "l", some "i"⟩).1
        (entryKey (toEntry ⟨some "n", some "s", some "p", some "l", some "i"⟩))).isSome =
      true :=
  ⟨(c1_validation_gate [] ⟨none, some "s", some "p", some "l", some "i"⟩
      [⟨some "n", some "s", some "p", some "l", some "i"⟩]).2.1 (by decide),
   (c1_validation_gate [] ⟨some "n", some "s", some "p", some "l", some "i"⟩ []).2.2.1
      (by decide)⟩

/-- No two valid candidates of the sequence disagree on the fields of a
shared identity key. Under this condition a batch is idempotent; without
it, later same-key candidates keep overwriting each other on every run. -/
def consistentCandidates (l : List IProductInfo) : Prop :=
  ∀ r ∈ l, ∀ s ∈ l, validRecord r = true → validRecord s = true →
    entryKey (toEntry r) = entryKey (toEntry s) → toEntry r = toEntry s

/-- Processing candidates that all agree with an entry already present
under its key leaves that entry's lookup unchanged. -/
theorem lookupEntry_processCandidates_preserved (e : CatalogEntry) :
    ∀ (l : List IProductInfo) (c : List CatalogEntry),
      lookupEntry c (entryKey e) = some e →
      (∀ r ∈ l, validRecord r = true → entryKey (toEntry r) = entryKey e →
        toEntry r = e) →
      lookupEntry (processCandidates c l).1 (entryKey e) = some e := by
  intro l
  induction l with
  | nil =>
    intro c hc _
    simpa [processCandidates] using hc
  | cons x xs ih =>
    intro c hc hcons
    have hstep : lookupEntry (applyRecord c x).1 (entryKey e) = some e := by
      by_cases hv : validRecord x = true
      · by_cases hk : entryKey (toEntry x) = entryKey e
        · have hx : toEntry x = e := hcons x (List.mem_cons_self x xs) hv hk
          have hself := lookupEntry_applyRecord_self c x hv
          rw [hk, hx] at hself
          exact hself
        · rw [lookupEntry_applyRecord_ne c x (entryKey e) hk]
          exact hc
      · rw [applyRecord_invalid c x (by simpa using hv)]
        exact hc
    simp only [processCandidates]
    exact ih (applyRecord c x).1 hstep
      (fun r hr hvr hkr => hcons r (List.mem_cons_of_mem x hr) hvr hkr)

/-- After one run over a consistent candidate sequence, every valid
candidate's entry is present in the catalog under its identity key. -/
theorem lookupEntry_processCandidates_mem :
    ∀ (l : List IProductInfo) (c : List CatalogEntry),
      consistentCandidates l →
      ∀ r ∈ l, validRecord r = true →
      lookupEntry (processCandidates c l).1 (entryKey (toEntry r)) =
        some (toEntry r) := by
  intro l
  induction l with
  | nil =>
    intro c _ r hr
    simp at hr
  | cons x xs ih =>
    intro c hcons r hr hv
    rcases List.mem_cons.mp hr with rfl | hr
    · have h1 : lookupEntry (applyRecord c r).1 (entryKey (toEntry r)) =
          some (toEntry r) := lookupEntry_applyRecord_self c r hv
      simp only [processCandidates]
      exact lookupEntry_processCandidates_preserved (toEntry r) xs (applyRecord c r).1 h1
        (fun s hs hvs hks =>
          hcons s (List.mem_cons_of_mem r hs) r (List.mem_cons_self r xs) hvs hv hks)
    · simp only [processCandidates]
      exact ih (applyRecord c x).1
        (fun a ha b hb hva hvb hk =>
          hcons a (List.mem_cons_of_mem x ha) b (List.mem_cons_of_mem x hb) hva hvb hk)
        r hr hv

/-- A candidate run in which every valid candidate is already present with
identical fields performs zero catalog writes and leaves the catalog
untouched. -/
theorem processCandidates_no_writes :
    ∀ (l : List IProductInfo) (c : List CatalogEntry),
      (∀ r ∈ l, validRecord r = true →
        lookupEntry c (entryKey (toEntry r)) = some (toEntry r)) →
      processCandidates c l = (c, 0) := by
  intro l
  induction l with
  | nil => intro c _; rfl
  | cons x xs ih =>
    intro c h
    have hx : applyRecord c x = (c, 0) := by
      by_cases hv : validRecord x = true
      · exact applyRecord_valid_same c x hv (h x (List.mem_cons_self x xs) hv)
      · exact applyRecord_invalid c x (by simpa using hv)
    have hxs : processCandidates c xs = (c, 0) :=
      ih c (fun r hr hv => h r (List.mem_cons_of_mem x hr) hv)
    simp [processCandidates, hx, hxs]

/-- C3 (amended): when the batch's valid candidates are consistent — no
two share an identity key with different fields — re-running
`processScrapeResults` on the unchanged batch performs zero additional
catalog writes: every lookup finds the entry the first run persisted, so
nothing is inserted and no update fires. -/
theorem c3_idempotent_reconciliation (batch : List (String × Option (List IProductInfo)))
    (c0 : List CatalogEntry) (hcons : consistentCandidates (flattenBatch batch)) :
    (processScrapeResults batch (processScrapeResults batch c0).1).2 = 0 := by
  have hall : ∀ r ∈ flattenBatch batch, validRecord r = true →
      lookupEntry (processCandidates c0 (flattenBatch batch)).1
        (entryKey (toEntry r)) = some (toEntry r) :=
    fun r hr hv => lookupEntry_processCandidates_mem (flattenBatch batch) c0 hcons r hr hv
  show (processCandidates (processCandidates c0 (flattenBatch batch)).1
      (flattenBatch batch)).2 = 0
  rw [processCandidates_no_writes (flattenBatch batch)
    (processCandidates c0 (flattenBatch batch)).1 hall]

/-- Witness for C3 (amended) on a concrete consistent batch: the second
run performs zero writes. -/
theorem c3_idempotent_reconciliation_witness :
    (processScrapeResults
        [("meat", some [⟨some "n", some "s", some "1", some "l", some "i"⟩]),
         ("produce", none)]
        (processScrapeResults
          [("meat", some [⟨some "n", some "s", some "1", some "l", some "i"⟩]),
           ("produce", none)] []).1).2 = 0 :=
  c3_idempotent_reconciliation
    [("meat", some [⟨some "n", some "s", some "1", some "l", some "i"⟩]),
     ("produce", none)] [] (by unfold consistentCandidates; decide)

/-- Counterexample to C3 as stated: a batch holding two valid candidates
with the same identity key but different prices. The first run inserts the
first and updates to the second; the second, identical, run finds the
second's price, rewrites the first's, then updates back — two writes, so
re-running an unchanged batch is not write-free in general. -/
theorem c3_idempotent_counterexample :
    (processScrapeResults
        [("meat", some [⟨some "n", some "s", some "1", some "l", some "i"⟩,
                        ⟨some "n", some "s", some "2", some "l", some "i"⟩])]
        (processScrapeResults
          [("meat", some [⟨some "n", some "s", some "1", some "l", some "i"⟩,
                          ⟨some "n", some "s", some "2", some "l", some "i"⟩])] []).1).2 ≠
      0 := by decide

end PricePinion
